import Mathlib

/-!
Shallow embedding of the desoto discovery agent (src/main.go) and proofs of the
specification claims about it.

Conventions of the embedding:
* Container names are lists of characters (`Name`), so that the character-level
  `strings.TrimLeft(name, "/")` of main.go:100 can be reasoned about directly.
* Go `int64` port values are modelled as `Int`; only comparisons are performed
  on them, so no overflow arithmetic is involved.
* The compiled regular expression held in a `Service` (field `re`, compiled by
  `newService` in service.go, which is outside src/) is abstracted as a Boolean
  predicate on names; `updateVulcanDFromDocker` only ever calls `MatchString`.
* Effectful calls (etcd get/put, docker list) are modelled by an explicit
  environment `Env` fixing the outcome of each external call, and each embedded
  function returns the list of observable events (registry writes, warnings,
  fatal exits) it performs.  `log.Fatal` terminates the process, so functions
  that can call it return `Option` results: `none` means the process exited.
-/

namespace Desoto

/-- A container name, character by character. -/
abbrev Name := List Char

/-- main.go:100, `cleanName := strings.TrimLeft(name, "/")`.
Go `strings.TrimLeft` removes ALL leading characters belonging to the cutset,
here all leading path separators. -/
def cleanName (name : Name) : Name := name.dropWhile (fun c => c = '/')

/-- The operation described by the spec words: strip at most a SINGLE leading
path-separator character.  Declared only to compare with `cleanName`, the
operation the code performs. -/
def stripOneLeadingSlash (name : Name) : Name :=
  match name with
  | '/' :: rest => rest
  | other => other

/-- One entry of `docker.APIContainers.Ports`: a port mapping with a private
(in-container) port and a public (host) port; `PublicPort` is 0 when the port
is not exposed on the host. -/
structure APIPort where
  privatePort : Int
  publicPort : Int
  deriving DecidableEq, Repr

/-- The slice of `docker.APIContainers` that main.go consumes: id, the list of
names, and the port mappings. -/
structure APIContainers where
  id : String
  names : List Name
  ports : List APIPort
  deriving DecidableEq, Repr

/-- Helper performing the `for _, aPort := range container.Ports` scan of
main.go:139-148 on the list of port mappings.  `Except.error ()` stands for
returning `(-1, PortNotExposedError)`. -/
def findExternalPortPorts (ports : List APIPort) (containerPort : Int) : Except Unit Int :=
  match ports with
  | [] => .error ()
  | aPort :: rest =>
    if containerPort = aPort.privatePort then
      if aPort.publicPort < 1 ∨ aPort.publicPort > 65535 then .error ()
      else .ok aPort.publicPort
    else findExternalPortPorts rest containerPort

/-- main.go:138-150, `findExternalPort`. -/
def findExternalPort (container : APIContainers) (containerPort : Int) : Except Unit Int :=
  findExternalPortPorts container.ports containerPort

/-- The part of the service definition that main.go reads:
`svc.serviceDef.ContainerPort` (main.go:113). -/
structure ServiceDef where
  containerPort : Int

/-- A loaded service: its etcd key, its definition, and the compiled name
pattern `re` (used only through `re.MatchString` at main.go:102), abstracted
as a Boolean predicate on cleaned names. -/
structure Service where
  key : String
  serviceDef : ServiceDef
  re : Name → Bool

/-- One etcd node under the service-definition base path (main.go:208-209). -/
structure EtcdNode where
  key : String
  value : String
  deriving DecidableEq, Repr

/-- Observable events of a reconciliation pass: registry-write attempts,
warnings, and fatal exits, in program order. -/
inductive Event where
  /-- main.go:211-215: warning `invalid service definition. skipping.` -/
  | warnInvalidService (key : String)
  /-- main.go:201-204: `log.Fatal` because etcd `Get` on the definitions base path failed. -/
  | fatalGetServices
  /-- main.go:95: `log.Fatal` because `ListContainers` failed. -/
  | fatalListContainers
  /-- main.go:103-104: debug log `registering container as server` followed by the
  call `registerContainerWithVulcan(eclient, s, c, vulcanPath, cleanName)`. -/
  | registerCall (serviceKey : String) (instanceName : Name)
  /-- main.go:115-121: warning `could not find exposed port`. -/
  | warnPortNotExposed (serviceKey : String) (instanceName : Name)
  /-- main.go:125-126: `server.put` attempt for (service key, instance name) with host and port. -/
  | serverPutAttempt (serviceKey : String) (instanceName : Name) (host : String) (port : Int)
  /-- main.go:127-132: warning `could not add container to server registry`. -/
  | warnServerPutFailed (serviceKey : String) (instanceName : Name)
  /-- main.go:154-155: `backend.put` attempt for a service key. -/
  | backendPutAttempt (serviceKey : String)
  /-- main.go:156-159: warning `could not register backend`. -/
  | warnBackendPutFailed (serviceKey : String)
  deriving DecidableEq, Repr

/-- Environment fixing the outcome of every external call made during one
reconciliation pass: the etcd `Get` of the definitions tree, the docker
`ListContainers` call, and the success of each `put` upsert. -/
structure Env where
  host : String
  defsNodes : Except Unit (List EtcdNode)
  containers : Except Unit (List APIContainers)
  backendPutOk : String → Bool
  serverPutOk : String → Name → Bool

/-- main.go:112-134, `registerContainerWithVulcan`.  Resolves the external
port; on failure warns and returns.  Otherwise attempts the `Server.put`
upsert (service.go, behind the `server.put` call) and warns if it fails.
Never fatal. -/
def registerContainerWithVulcan (env : Env) (svc : Service) (container : APIContainers)
    (instanceName : Name) : List Event :=
  match findExternalPort container svc.serviceDef.containerPort with
  | .error _ => [.warnPortNotExposed svc.key instanceName]
  | .ok port =>
    .serverPutAttempt svc.key instanceName env.host port ::
      (if env.serverPutOk svc.key instanceName then []
       else [.warnServerPutFailed svc.key instanceName])

/-- The triple loop of main.go:98-108 over containers, names and services,
given the container list returned by `ListContainers`. -/
def pollContainers (env : Env) (svcs : List Service)
    (containers : List APIContainers) : List Event :=
  containers.flatMap fun c =>
    c.names.flatMap fun name =>
      svcs.flatMap fun s =>
        if s.re (cleanName name) then
          .registerCall s.key (cleanName name) ::
            registerContainerWithVulcan env s c (cleanName name)
        else []

/-- main.go:92-110, `updateVulcanDFromDocker`.  `ListContainers` failing is
`log.Fatal` (second component `none`); otherwise the poll trace is produced
and the process continues. -/
def updateVulcanDFromDocker (env : Env) (svcs : List Service) :
    List Event × Option Unit :=
  match env.containers with
  | .error _ => ([.fatalListContainers], none)
  | .ok cs => (pollContainers env svcs cs, some ())

/-- main.go:152-162, `initializeVulcandBackends`: one `backend.put` attempt per
service, a warning on each failed attempt, never fatal, never early exit. -/
def initializeVulcandBackends (env : Env) (svcs : List Service) : List Event :=
  svcs.flatMap fun s =>
    .backendPutAttempt s.key ::
      (if env.backendPutOk s.key then [] else [.warnBackendPutFailed s.key])

/-- main.go:207-219, the per-node loop of `mustGetServices`: each node is
parsed independently by `newService` (service.go, abstracted as `parse`); a
parse failure warns and skips the node, a success appends the service. -/
def loadNodes (parse : EtcdNode → Except Unit Service) :
    List EtcdNode → List Event × List Service
  | [] => ([], [])
  | n :: rest =>
    match parse n with
    | .error _ =>
      let r := loadNodes parse rest
      (.warnInvalidService n.key :: r.1, r.2)
    | .ok s =>
      let r := loadNodes parse rest
      (r.1, s :: r.2)

/-- main.go:198-222, `mustGetServices`: the etcd `Get` of the whole definitions
tree failing is `log.Fatal`; otherwise every child node is parsed by
`loadNodes`. -/
def mustGetServices (env : Env) (parse : EtcdNode → Except Unit Service) :
    List Event × Option (List Service) :=
  match env.defsNodes with
  | .error _ => ([.fatalGetServices], none)
  | .ok nodes =>
    let r := loadNodes parse nodes
    (r.1, some r.2)

/-- The two triggers of the `select` in main.go:66-76. -/
inductive Trigger where
  | defChange
  | tick
  deriving DecidableEq, Repr

/-- One iteration of the reconciliation loop, main.go:65-77.  On `tick`
(main.go:73-75) only `updateVulcanDFromDocker` runs on the current service
set.  On `defChange` (main.go:67-72) the definitions are reloaded, the
in-memory set replaced, `initializeVulcandBackends` republishes a backend per
loaded service, then a full poll pass runs.  The result is the trace and, when
no `log.Fatal` fired, the service set held after the iteration. -/
def loopIteration (env : Env) (parse : EtcdNode → Except Unit Service)
    (svcs : List Service) : Trigger → List Event × Option (List Service)
  | .tick =>
    let r := updateVulcanDFromDocker env svcs
    (r.1, r.2.map fun _ => svcs)
  | .defChange =>
    match mustGetServices env parse with
    | (evs, none) => (evs, none)
    | (evs, some svcs1) =>
      let bevs := initializeVulcandBackends env svcs1
      let r := updateVulcanDFromDocker env svcs1
      (evs ++ bevs ++ r.1, r.2.map fun _ => svcs1)

/-- main.go:187-195: the watch driver goroutine calls `log.Fatal` exactly when
`backoff.RetryNotify` returns an error, i.e. when the retry policy reports a
permanent failure. -/
def watchDriverFatal (retryResult : Except Unit Unit) : Bool :=
  match retryResult with
  | .error _ => true
  | .ok _ => false

/-!
Operational model of the change-notification path, main.go:60 and 164-196.

`defChange := make(chan bool)` (main.go:60) and `receiver := make(chan
*etcd.Response)` (main.go:166) are both UNBUFFERED Go channels: a send blocks
until a receiver takes the value (Go language spec; a channel made without a
capacity argument has capacity 0).  The relay goroutine (main.go:167-172)
loops `<-receiver; changed <- true`: it takes one upstream event, then blocks
on the unbuffered send until the reconciliation loop receives it, which runs
one reconciliation pass.

The state below pre-loads a burst of `pendingUpstream` upstream change events
(sends blocked on `receiver`).  `relayHolding` records that the relay has
consumed an event and its `changed <- true` send is still in flight.  `passes`
counts reconciliation passes run by the consumer.  Rendezvous semantics leave
a single enabled transition at each state, so the dynamics are deterministic:
while the relay is blocked on its send it cannot take the next upstream event.
-/
structure WatchState where
  pendingUpstream : Nat
  relayHolding : Bool
  passes : Nat
  deriving DecidableEq, Repr

/-- The unique enabled transition of the relay pipeline, or `none` when the
burst is fully drained. -/
def watchStep (s : WatchState) : Option WatchState :=
  if s.relayHolding then
    some { s with relayHolding := false, passes := s.passes + 1 }
  else if 0 < s.pendingUpstream then
    some { s with pendingUpstream := s.pendingUpstream - 1, relayHolding := true }
  else
    none

/-- Run the relay pipeline for at most `fuel` transitions. -/
def runWatch : Nat → WatchState → WatchState
  | 0, s => s
  | fuel + 1, s =>
    match watchStep s with
    | none => s
    | some s1 => runWatch fuel s1

/-- Total number of reconciliation passes caused by a burst of `n` upstream
change events arriving before the consumer drains anything (2n+1 transitions
fully drain the burst). -/
def burstPasses (n : Nat) : Nat :=
  (runWatch (2 * n + 1) { pendingUpstream := n, relayHolding := false, passes := 0 }).passes

/-- The service keys of the backend upsert attempts occurring in a trace, in
order. -/
def backendAttemptKeys (evs : List Event) : List String :=
  evs.filterMap fun e =>
    match e with
    | .backendPutAttempt k => some k
    | _ => none

/-- The (service key, instance name) pairs of the server-registration calls
occurring in a trace, in order (one per execution of main.go:103-104). -/
def registerCallKeys (evs : List Event) : List (String × Name) :=
  evs.filterMap fun e =>
    match e with
    | .registerCall k n => some (k, n)
    | _ => none

/-! ## Concrete fixtures used by witnesses and counterexamples -/

/-- A container whose runtime-assigned display name carries two leading path
separators, and which publishes no port. -/
def doubleSlashContainer : APIContainers :=
  { id := "c0", names := [['/', '/', 'a', 'p', 'p']], ports := [] }

/-- An environment in which every external call succeeds and the container
inventory holds only `doubleSlashContainer`. -/
def fixtureEnv : Env :=
  { host := "localhost", defsNodes := .ok [], containers := .ok [doubleSlashContainer],
    backendPutOk := fun _ => true, serverPutOk := fun _ _ => true }

/-- A well-formed definition node. -/
def nodeGood : EtcdNode := { key := "good", value := "v" }

/-- A malformed definition node. -/
def nodeBad : EtcdNode := { key := "bad", value := "w" }

/-- The service `parseFixture` yields for `nodeGood`. -/
def svcFixture : Service :=
  { key := "svc1", serviceDef := { containerPort := 80 }, re := fun _ => true }

/-- A parse function accepting exactly the nodes keyed `good`. -/
def parseFixture (n : EtcdNode) : Except Unit Service :=
  if n.key == "good" then .ok svcFixture else .error ()

/-- An environment whose definitions tree holds one good and one bad node and
whose container inventory is empty. -/
def fixtureEnvDefs : Env :=
  { host := "localhost", defsNodes := .ok [nodeGood, nodeBad], containers := .ok [],
    backendPutOk := fun _ => true, serverPutOk := fun _ _ => true }

/-- An environment in which `ListContainers` fails. -/
def fixtureEnvNoDocker : Env :=
  { host := "localhost", defsNodes := .ok [], containers := .error (),
    backendPutOk := fun _ => true, serverPutOk := fun _ _ => true }

/-- A container named `a` exposing private port 80 on public port 8080. -/
def portContainer : APIContainers :=
  { id := "c1", names := [['a']],
    ports := [{ privatePort := 80, publicPort := 8080 }] }

/-- An environment in which every registry upsert fails. -/
def fixtureEnvPutFail : Env :=
  { host := "localhost", defsNodes := .ok [], containers := .ok [portContainer],
    backendPutOk := fun _ => false, serverPutOk := fun _ _ => false }

/-! ## Helper lemmas -/

/-- The scan of main.go:139-148 decides on the FIRST port mapping whose private
port equals the requested one: it equals a `find?` on the mapping list. -/
theorem findExternalPortPorts_eq_find? (ports : List APIPort) (p : Int) :
    findExternalPortPorts ports p =
      match ports.find? (fun x => x.privatePort == p) with
      | none => .error ()
      | some m =>
        if m.publicPort < 1 ∨ m.publicPort > 65535 then .error () else .ok m.publicPort := by
  induction ports with
  | nil => rfl
  | cons a rest ih =>
    by_cases h : p = a.privatePort
    · rw [findExternalPortPorts, if_pos h, List.find?_cons_of_pos _ (by simp [h])]
    · rw [findExternalPortPorts, if_neg h, ih,
        List.find?_cons_of_neg _ (by simp; exact fun hh => h hh.symm)]

/-- In a mapping list headed by non-matching entries, `find?` picks the first
matching mapping. -/
theorem find?_pre_append (p : Int) (pre post : List APIPort) (m : APIPort)
    (hpre : ∀ x ∈ pre, x.privatePort ≠ p) (hm : m.privatePort = p) :
    (pre ++ m :: post).find? (fun x => x.privatePort == p) = some m := by
  induction pre with
  | nil => exact List.find?_cons_of_pos _ (by simp [hm])
  | cons a pre ih =>
    rw [List.cons_append,
      List.find?_cons_of_neg _ (by simp [hpre a (List.mem_cons_self a pre)])]
    exact ih fun x hx => hpre x (List.mem_cons_of_mem a hx)

/-! ## Claims -/

/-- C1: for every container and internal port, `findExternalPort` returns
`PortNotExposedError` exactly when either no port mapping has a private port
equal to the requested internal port, or the (first) matching mapping carries
a public port outside [1, 65535]; for a matching mapping whose public port
lies in [1, 65535] it returns that public port with no error. -/
theorem findExternalPort_notExposed_spec (c : APIContainers) (p : Int) :
    (findExternalPort c p = .error () ↔
       c.ports.find? (fun x => x.privatePort == p) = none ∨
       ∃ m, c.ports.find? (fun x => x.privatePort == p) = some m ∧
         (m.publicPort < 1 ∨ m.publicPort > 65535)) ∧
    (∀ m, c.ports.find? (fun x => x.privatePort == p) = some m →
       1 ≤ m.publicPort → m.publicPort ≤ 65535 →
       findExternalPort c p = .ok m.publicPort) ∧
    (c.ports.find? (fun x => x.privatePort == p) = none ↔
       ∀ m ∈ c.ports, m.privatePort ≠ p) := by
  refine ⟨?_, ?_, ?_⟩
  · rw [findExternalPort, findExternalPortPorts_eq_find?]
    cases hf : c.ports.find? (fun x => x.privatePort == p) with
    | none => simp
    | some a =>
      simp only [Option.some.injEq]
      constructor
      · intro he
        by_cases hbad : a.publicPort < 1 ∨ a.publicPort > 65535
        · exact Or.inr ⟨a, rfl, hbad⟩
        · rw [if_neg hbad] at he
          exact absurd he (by simp)
      · rintro (h | ⟨m, hm, hbad⟩)
        · exact absurd h (by simp)
        · cases hm
          exact if_pos hbad
  · intro m hm h1 h2
    rw [findExternalPort, findExternalPortPorts_eq_find?, hm]
    exact if_neg (by omega)
  · rw [List.find?_eq_none]
    constructor
    · intro h m hm he
      exact absurd (h m hm) (by simp [he])
    · intro h m hm
      simpa using h m hm

/-- C1 witness: a container exposing private port 80 on public port 8080
resolves to 8080 with no error. -/
theorem findExternalPort_notExposed_spec_witness :
    findExternalPort
      { id := "abc", names := [],
        ports := [{ privatePort := 80, publicPort := 8080 }] } 80 = .ok 8080 :=
  (findExternalPort_notExposed_spec
      { id := "abc", names := [],
        ports := [{ privatePort := 80, publicPort := 8080 }] } 80).2.1
    { privatePort := 80, publicPort := 8080 } (by decide) (by decide) (by decide)

/-- C9: port resolution scans the mappings in list order and decides on the
first mapping whose private port matches: if that mapping carries a public
port outside [1, 65535], it returns `PortNotExposedError`, whatever the later
mappings (even a later mapping with the same private port and a valid public
port) carry. -/
theorem findExternalPort_first_match (c : APIContainers) (p : Int)
    (pre post : List APIPort) (m : APIPort)
    (hports : c.ports = pre ++ m :: post)
    (hpre : ∀ x ∈ pre, x.privatePort ≠ p)
    (hm : m.privatePort = p)
    (hbad : m.publicPort < 1 ∨ m.publicPort > 65535) :
    findExternalPort c p = .error () := by
  rw [findExternalPort, findExternalPortPorts_eq_find?, hports,
    find?_pre_append p pre post m hpre hm]
  exact if_pos hbad

/-- C9 witness: the first mapping for private port 80 has public port 0, so
resolution fails even though a second mapping for private port 80 carries the
valid public port 8080. -/
theorem findExternalPort_first_match_witness :
    findExternalPort
      { id := "abc", names := [],
        ports := [{ privatePort := 80, publicPort := 0 },
                  { privatePort := 80, publicPort := 8080 }] } 80 = .error () :=
  findExternalPort_first_match
    { id := "abc", names := [],
      ports := [{ privatePort := 80, publicPort := 0 },
                { privatePort := 80, publicPort := 8080 }] } 80
    [] [{ privatePort := 80, publicPort := 8080 }]
    { privatePort := 80, publicPort := 0 } rfl (by decide) rfl (by decide)

/-- C5 counterexample: the code (main.go:100, `strings.TrimLeft(name, "/")`)
strips ALL leading path separators, not a single one.  For the container name
`//app` the cleaned name is `app`, not the `/app` the claim predicts; in a
poll pass a service whose pattern matches exactly `/app` is never registered
for that container, while a service whose pattern matches exactly `app` is. -/
theorem cleanName_single_strip_cex :
    cleanName ['/', '/', 'a', 'p', 'p'] = ['a', 'p', 'p'] ∧
    cleanName ['/', '/', 'a', 'p', 'p'] ≠ ['/', 'a', 'p', 'p'] ∧
    stripOneLeadingSlash ['/', '/', 'a', 'p', 'p'] = ['/', 'a', 'p', 'p'] ∧
    pollContainers fixtureEnv
      [{ key := "svc1", serviceDef := { containerPort := 80 },
         re := fun n => n == ['/', 'a', 'p', 'p'] }] [doubleSlashContainer] = [] ∧
    pollContainers fixtureEnv
      [{ key := "svc1", serviceDef := { containerPort := 80 },
         re := fun n => n == ['a', 'p', 'p'] }] [doubleSlashContainer] =
      [.registerCall "svc1" ['a', 'p', 'p'],
       .warnPortNotExposed "svc1" ['a', 'p', 'p']] := by
  refine ⟨rfl, by decide, rfl, rfl, rfl⟩

/-- C5 amended: the poll pass compares a container name to the service
patterns after stripping ALL leading path-separator characters: the cleaned
name never starts with a separator, the original name is the cleaned name
preceded by some number of separators, and a name starting with a separator
is cleaned exactly as its tail is (so a single leading separator is removed,
and several leading separators are all removed). -/
theorem cleanName_strips_all_leading (name : Name) :
    (∀ ch, (cleanName name).head? = some ch → ch ≠ '/') ∧
    (∃ k, name = List.replicate k '/' ++ cleanName name) ∧
    (∀ rest, name = '/' :: rest → cleanName name = cleanName rest) := by
  induction name with
  | nil =>
    refine ⟨?_, ⟨0, rfl⟩, ?_⟩
    · intro ch h
      simp [cleanName] at h
    · intro rest h
      cases h
  | cons a rest ih =>
    by_cases h : a = '/'
    · subst h
      have hc : cleanName ('/' :: rest) = cleanName rest := by
        simp [cleanName, List.dropWhile_cons]
      refine ⟨fun ch hh => ih.1 ch (by rwa [hc] at hh), ?_, fun r hr => ?_⟩
      · obtain ⟨k, hk⟩ := ih.2.1
        exact ⟨k + 1, by rw [hc, List.replicate_succ, List.cons_append]; exact congrArg _ hk⟩
      · cases hr
        exact hc
    · have hc : cleanName (a :: rest) = a :: rest := by
        simp [cleanName, List.dropWhile_cons, h]
      refine ⟨fun ch hh => ?_, ⟨0, by rw [hc]; rfl⟩, fun r hr => absurd ?_ h⟩
      · rw [hc] at hh
        simp only [List.head?_cons, Option.some.injEq] at hh
        rwa [hh] at h
      · exact (List.cons.injEq a rest '/' r).mp hr |>.1

/-- C5 amended witness: the name `//a` is two separators followed by its
cleaned form, and cleaning it is the same as cleaning its tail `/a`. -/
theorem cleanName_strips_all_leading_witness :
    (∃ k, ['/', '/', 'a'] = List.replicate k '/' ++ cleanName ['/', '/', 'a']) ∧
    cleanName ['/', '/', 'a'] = cleanName ['/', 'a'] :=
  ⟨(cleanName_strips_all_leading ['/', '/', 'a']).2.1,
   (cleanName_strips_all_leading ['/', '/', 'a']).2.2 ['/', 'a'] rfl⟩

/-- The services loaded by the per-node loop are exactly the successfully
parsed nodes, in node order. -/
theorem loadNodes_services (parse : EtcdNode → Except Unit Service)
    (ns : List EtcdNode) :
    (loadNodes parse ns).2 = ns.filterMap fun n => (parse n).toOption := by
  induction ns with
  | nil => rfl
  | cons n rest ih =>
    cases hp : parse n <;> simp [loadNodes, hp, ih, Except.toOption]

/-- Every malformed node in the definitions tree produces a warning naming
its key. -/
theorem loadNodes_warn (parse : EtcdNode → Except Unit Service)
    (ns : List EtcdNode) (b : EtcdNode) (hb : b ∈ ns) (he : parse b = .error ()) :
    Event.warnInvalidService b.key ∈ (loadNodes parse ns).1 := by
  induction ns with
  | nil => cases hb
  | cons n rest ih =>
    cases hb with
    | head => simp [loadNodes, he]
    | tail _ hb2 =>
      cases hp : parse n <;> simp [loadNodes, hp, ih hb2]

/-- C3: when the definitions tree is readable, loading yields exactly one
service per well-formed entry, in entry order; each malformed entry is
excluded with a warning naming its key while every sibling entry is loaded
exactly as it would be without the malformed entry; and the loaded set is
independent of entry ordering (a permutation of the entries permutes the
loaded services). -/
theorem mustGetServices_per_entry (env : Env)
    (parse : EtcdNode → Except Unit Service) (nodes : List EtcdNode)
    (hok : env.defsNodes = .ok nodes) :
    ((mustGetServices env parse).2 =
       some (nodes.filterMap fun n => (parse n).toOption)) ∧
    (∀ pre b post, nodes = pre ++ b :: post → parse b = .error () →
       ((mustGetServices env parse).2 =
          some ((pre ++ post).filterMap fun n => (parse n).toOption)) ∧
       Event.warnInvalidService b.key ∈ (mustGetServices env parse).1) ∧
    (∀ nodes2, nodes.Perm nodes2 →
       (nodes.filterMap fun n => (parse n).toOption).Perm
         (nodes2.filterMap fun n => (parse n).toOption)) := by
  have hget : mustGetServices env parse =
      ((loadNodes parse nodes).1, some (loadNodes parse nodes).2) := by
    simp [mustGetServices, hok]
  refine ⟨?_, ?_, ?_⟩
  · rw [hget, loadNodes_services]
  · intro pre b post hsplit he
    constructor
    · rw [hget, loadNodes_services, hsplit, List.filterMap_append,
        List.filterMap_append, List.filterMap_cons]
      simp [he, Except.toOption]
    · rw [hget]
      exact loadNodes_warn parse nodes b
        (by rw [hsplit]; exact List.mem_append_right pre (List.mem_cons_self b post)) he
  · intro nodes2 hperm
    exact hperm.filterMap _

/-- C3 witness: loading a tree holding one well-formed and one malformed node
yields exactly the service of the well-formed node and warns about the key of
the malformed one. -/
theorem mustGetServices_per_entry_witness :
    ((mustGetServices fixtureEnvDefs parseFixture).2 =
       some (([nodeGood, nodeBad]).filterMap fun n => (parseFixture n).toOption)) ∧
    ((mustGetServices fixtureEnvDefs parseFixture).2 =
       some (([nodeGood] ++ ([] : List EtcdNode)).filterMap
         fun n => (parseFixture n).toOption)) ∧
    Event.warnInvalidService "bad" ∈ (mustGetServices fixtureEnvDefs parseFixture).1 :=
  ⟨(mustGetServices_per_entry fixtureEnvDefs parseFixture [nodeGood, nodeBad] rfl).1,
   ((mustGetServices_per_entry fixtureEnvDefs parseFixture [nodeGood, nodeBad] rfl).2.1
      [nodeGood] nodeBad [] rfl rfl).1,
   ((mustGetServices_per_entry fixtureEnvDefs parseFixture [nodeGood, nodeBad] rfl).2.1
      [nodeGood] nodeBad [] rfl rfl).2⟩

/-- Every event of a poll pass is a server-registration event: a register
call, a port warning, a server upsert attempt, or a server upsert warning. -/
theorem mem_pollContainers (env : Env) (svcs : List Service)
    (cs : List APIContainers) (e : Event) (he : e ∈ pollContainers env svcs cs) :
    (∃ k n, e = .registerCall k n) ∨ (∃ k n, e = .warnPortNotExposed k n) ∨
    (∃ k n h p, e = .serverPutAttempt k n h p) ∨
    (∃ k n, e = .warnServerPutFailed k n) := by
  simp only [pollContainers, List.mem_flatMap] at he
  obtain ⟨c, -, name, -, s, -, he⟩ := he
  by_cases hm : s.re (cleanName name) = true
  · rw [if_pos hm] at he
    cases he with
    | head => exact Or.inl ⟨s.key, cleanName name, rfl⟩
    | tail _ he2 =>
      rw [registerContainerWithVulcan] at he2
      cases hf : findExternalPort c s.serviceDef.containerPort with
      | error u =>
        rw [hf] at he2
        cases he2 with
        | head => exact Or.inr (Or.inl ⟨s.key, cleanName name, rfl⟩)
        | tail _ h3 => cases h3
      | ok port =>
        rw [hf] at he2
        cases he2 with
        | head => exact Or.inr (Or.inr (Or.inl ⟨s.key, cleanName name, env.host, port, rfl⟩))
        | tail _ h3 =>
          by_cases hput : env.serverPutOk s.key (cleanName name) = true
          · rw [if_pos hput] at h3
            cases h3
          · rw [if_neg hput] at h3
            cases h3 with
            | head => exact Or.inr (Or.inr (Or.inr ⟨s.key, cleanName name, rfl⟩))
            | tail _ h4 => cases h4
  · rw [if_neg hm] at he
    cases he

/-- The backend-publication loop emits an upsert attempt for every service in
the set. -/
theorem backendPutAttempt_mem_initBackends (env : Env) (svcs : List Service)
    (s : Service) (hs : s ∈ svcs) :
    Event.backendPutAttempt s.key ∈ initializeVulcandBackends env svcs := by
  simp only [initializeVulcandBackends, List.mem_flatMap]
  exact ⟨s, hs, List.mem_cons_self _ _⟩

/-- C2: a periodic tick runs a poll pass only — its trace is exactly the poll
trace on the unchanged in-memory service set and carries no backend republish
and no definition reload or reload warning; a definition-change signal
reloads the definitions, replaces the in-memory set with the loaded one,
republishes a backend for every loaded service, and then runs a full poll
pass on the new set, in that order. -/
theorem loopIteration_triggers (env : Env)
    (parse : EtcdNode → Except Unit Service) (svcs : List Service) :
    (loopIteration env parse svcs .tick =
       ((updateVulcanDFromDocker env svcs).1,
        ((updateVulcanDFromDocker env svcs).2).map fun _ => svcs)) ∧
    (∀ e ∈ (loopIteration env parse svcs .tick).1,
       (∀ k, e ≠ Event.backendPutAttempt k) ∧ e ≠ Event.fatalGetServices ∧
       (∀ k, e ≠ Event.warnInvalidService k)) ∧
    (∀ nodes, env.defsNodes = .ok nodes →
       loopIteration env parse svcs .defChange =
         ((loadNodes parse nodes).1
            ++ initializeVulcandBackends env (loadNodes parse nodes).2
            ++ (updateVulcanDFromDocker env (loadNodes parse nodes).2).1,
          ((updateVulcanDFromDocker env (loadNodes parse nodes).2).2).map
            fun _ => (loadNodes parse nodes).2) ∧
       ∀ s ∈ (loadNodes parse nodes).2,
         Event.backendPutAttempt s.key ∈ (loopIteration env parse svcs .defChange).1) := by
  refine ⟨rfl, ?_, ?_⟩
  · intro e he
    rw [loopIteration] at he
    cases hc : env.containers with
    | error u =>
      rw [updateVulcanDFromDocker, hc] at he
      cases he with
      | head => exact ⟨fun k => by simp, by simp, fun k => by simp⟩
      | tail _ h2 => cases h2
    | ok cs =>
      rw [updateVulcanDFromDocker, hc] at he
      rcases mem_pollContainers env svcs cs e he with
        ⟨k, n, rfl⟩ | ⟨k, n, rfl⟩ | ⟨k, n, h, p, rfl⟩ | ⟨k, n, rfl⟩ <;>
        exact ⟨fun k2 => by simp, by simp, fun k2 => by simp⟩
  · intro nodes hok
    have hget : mustGetServices env parse =
        ((loadNodes parse nodes).1, some (loadNodes parse nodes).2) := by
      simp [mustGetServices, hok]
    have hloop : loopIteration env parse svcs .defChange =
        ((loadNodes parse nodes).1
           ++ initializeVulcandBackends env (loadNodes parse nodes).2
           ++ (updateVulcanDFromDocker env (loadNodes parse nodes).2).1,
         ((updateVulcanDFromDocker env (loadNodes parse nodes).2).2).map
           fun _ => (loadNodes parse nodes).2) := by
      rw [loopIteration, hget]
    refine ⟨hloop, ?_⟩
    intro s hs
    rw [hloop]
    exact List.mem_append_left _
      (List.mem_append_right _ (backendPutAttempt_mem_initBackends env _ s hs))

/-- C2 witness: on a definition-change signal against a tree holding the
well-formed node `good`, the iteration trace contains a backend republish for
the loaded service `svc1`. -/
theorem loopIteration_triggers_witness :
    Event.backendPutAttempt "svc1" ∈
      (loopIteration fixtureEnvDefs parseFixture [] .defChange).1 :=
  ((loopIteration_triggers fixtureEnvDefs parseFixture []).2.2
      [nodeGood, nodeBad] rfl).2 svcFixture (List.mem_cons_self svcFixture [])

/-- C4: a reconciliation iteration terminates the process exactly when the
whole definitions set is unreachable during a definition-change reload or the
whole container inventory is unreachable during a poll; the watch driver
terminates the process exactly when the retry policy reports a permanent
failure; and fatality never depends on per-entity outcomes — changing the
parse function or the success of any backend or server upsert (anything in
the environment other than the reachability of the definitions tree and of
the container inventory) leaves fatality unchanged. -/
theorem loop_fatal_only_infra (env : Env)
    (parse : EtcdNode → Except Unit Service) (svcs : List Service)
    (trig : Trigger) (retryResult : Except Unit Unit) :
    ((loopIteration env parse svcs trig).2 = none ↔
       (trig = .defChange ∧ env.defsNodes = .error ()) ∨
       env.containers = .error ()) ∧
    (watchDriverFatal retryResult = true ↔ retryResult = .error ()) ∧
    (∀ (env2 : Env) (parse2 : EtcdNode → Except Unit Service),
       env2.defsNodes = env.defsNodes → env2.containers = env.containers →
       ((loopIteration env2 parse2 svcs trig).2 = none ↔
        (loopIteration env parse svcs trig).2 = none)) := by
  have key : ∀ (enva : Env) (parsea : EtcdNode → Except Unit Service),
      (loopIteration enva parsea svcs trig).2 = none ↔
        (trig = .defChange ∧ enva.defsNodes = .error ()) ∨
        enva.containers = .error () := by
    intro enva parsea
    cases trig <;> cases hd : enva.defsNodes <;> cases hc : enva.containers <;>
      simp [loopIteration, mustGetServices, updateVulcanDFromDocker, hd, hc]
  refine ⟨key env parse, ?_, ?_⟩
  · cases retryResult with
    | error u => simp [watchDriverFatal]
    | ok u => simp [watchDriverFatal]
  · intro env2 parse2 hd hc
    rw [key env2 parse2, key env parse, hd, hc]

/-- C4 witness: with the container inventory unreachable a tick is fatal, and
a permanent retry failure makes the watch driver fatal. -/
theorem loop_fatal_only_infra_witness :
    (loopIteration fixtureEnvNoDocker parseFixture [] .tick).2 = none ∧
    watchDriverFatal (.error ()) = true :=
  ⟨((loop_fatal_only_infra fixtureEnvNoDocker parseFixture [] .tick
       (.error ())).1).mpr (Or.inr rfl),
   ((loop_fatal_only_infra fixtureEnvNoDocker parseFixture [] .tick
       (.error ())).2.1).mpr rfl⟩

/-- Splitting `backendAttemptKeys` over appended traces. -/
theorem backendAttemptKeys_append (a b : List Event) :
    backendAttemptKeys (a ++ b) = backendAttemptKeys a ++ backendAttemptKeys b :=
  List.filterMap_append a b _

/-- Splitting `registerCallKeys` over appended traces. -/
theorem registerCallKeys_append (a b : List Event) :
    registerCallKeys (a ++ b) = registerCallKeys a ++ registerCallKeys b :=
  List.filterMap_append a b _

/-- The backend-publication loop attempts one upsert per service of the set,
in order, whatever upserts fail. -/
theorem backendAttemptKeys_initBackends (env : Env) (svcs : List Service) :
    backendAttemptKeys (initializeVulcandBackends env svcs) =
      svcs.map fun s => s.key := by
  induction svcs with
  | nil => rfl
  | cons s rest ih =>
    have hsplit : initializeVulcandBackends env (s :: rest) =
        (Event.backendPutAttempt s.key ::
          (if env.backendPutOk s.key then []
           else [Event.warnBackendPutFailed s.key]))
          ++ initializeVulcandBackends env rest := by
      rw [initializeVulcandBackends, List.flatMap_cons]
      rfl
    rw [hsplit, backendAttemptKeys_append, ih]
    by_cases h : env.backendPutOk s.key = true <;>
      simp [backendAttemptKeys, h]

/-- A failed backend upsert is logged as a warning in the trace. -/
theorem warnBackend_mem_initBackends (env : Env) (svcs : List Service)
    (x : Service) (hx : x ∈ svcs) (hfail : env.backendPutOk x.key = false) :
    Event.warnBackendPutFailed x.key ∈ initializeVulcandBackends env svcs := by
  simp only [initializeVulcandBackends, List.mem_flatMap]
  refine ⟨x, hx, ?_⟩
  rw [hfail]
  simp

/-- C7: a failed backend or server upsert never blocks any other upsert: the
backend publication loop attempts an upsert for every service in order
regardless of earlier failures and logs each failure as a warning; and a
server registration depends on the environment only through the host and the
put outcome of its own (service key, instance name) candidate, a failed
server upsert yielding the attempt followed by a warning. -/
theorem upsert_failures_contained (env env2 : Env) (svcs : List Service)
    (s : Service) (c : APIContainers) (n : Name)
    (hh : env.host = env2.host)
    (hput : env.serverPutOk s.key n = env2.serverPutOk s.key n) :
    (backendAttemptKeys (initializeVulcandBackends env svcs) =
       svcs.map fun x => x.key) ∧
    (∀ x ∈ svcs, env.backendPutOk x.key = false →
       Event.warnBackendPutFailed x.key ∈ initializeVulcandBackends env svcs) ∧
    (registerContainerWithVulcan env s c n =
       registerContainerWithVulcan env2 s c n) ∧
    (∀ port, findExternalPort c s.serviceDef.containerPort = .ok port →
       env.serverPutOk s.key n = false →
       registerContainerWithVulcan env s c n =
         [.serverPutAttempt s.key n env.host port,
          .warnServerPutFailed s.key n]) := by
  refine ⟨backendAttemptKeys_initBackends env svcs,
    fun x hx hf => warnBackend_mem_initBackends env svcs x hx hf, ?_, ?_⟩
  · rw [registerContainerWithVulcan, registerContainerWithVulcan]
    cases hf : findExternalPort c s.serviceDef.containerPort with
    | error u => rfl
    | ok port => rw [hh, hput]
  · intro port hf hfail
    rw [registerContainerWithVulcan, hf, hfail]
    rfl

/-- C7 witness: with every upsert failing, the backend loop still attempts
the upsert for `svc1`, warns about it, and a server registration for a
resolvable container attempts the upsert and warns about the failure. -/
theorem upsert_failures_contained_witness :
    (backendAttemptKeys (initializeVulcandBackends fixtureEnvPutFail [svcFixture]) =
       ["svc1"]) ∧
    Event.warnBackendPutFailed "svc1" ∈
      initializeVulcandBackends fixtureEnvPutFail [svcFixture] ∧
    registerContainerWithVulcan fixtureEnvPutFail svcFixture portContainer ['a'] =
      [.serverPutAttempt "svc1" ['a'] "localhost" 8080,
       .warnServerPutFailed "svc1" ['a']] :=
  ⟨(upsert_failures_contained fixtureEnvPutFail fixtureEnvPutFail [svcFixture]
      svcFixture portContainer ['a'] rfl rfl).1,
   (upsert_failures_contained fixtureEnvPutFail fixtureEnvPutFail [svcFixture]
      svcFixture portContainer ['a'] rfl rfl).2.1 svcFixture
     (List.mem_cons_self svcFixture []) rfl,
   (upsert_failures_contained fixtureEnvPutFail fixtureEnvPutFail [svcFixture]
      svcFixture portContainer ['a'] rfl rfl).2.2.2 8080 rfl rfl⟩

/-- A server registration emits no register-call event of its own (that event
belongs to the poll loop, main.go:103-104). -/
theorem registerCallKeys_register (env : Env) (s : Service)
    (c : APIContainers) (n : Name) :
    registerCallKeys (registerContainerWithVulcan env s c n) = [] := by
  cases hf : findExternalPort c s.serviceDef.containerPort with
  | error u => simp [registerContainerWithVulcan, hf, registerCallKeys]
  | ok port =>
    by_cases h : env.serverPutOk s.key n = true <;>
      simp [registerContainerWithVulcan, hf, registerCallKeys, h]

/-- The service scan for one cleaned container name registers once per
matching service. -/
theorem registerCallKeys_svcScan (env : Env) (c : APIContainers)
    (name : Name) (svcs : List Service) :
    registerCallKeys (svcs.flatMap fun s =>
      if s.re (cleanName name) then
        Event.registerCall s.key (cleanName name) ::
          registerContainerWithVulcan env s c (cleanName name)
      else []) =
    (svcs.filter fun s => s.re (cleanName name)).map
      fun s => (s.key, cleanName name) := by
  induction svcs with
  | nil => rfl
  | cons s rest ih =>
    rw [List.flatMap_cons, registerCallKeys_append, ih, List.filter_cons]
    by_cases h : s.re (cleanName name) = true
    · rw [if_pos h, if_pos h, List.map_cons]
      show ((s.key, cleanName name) ::
        registerCallKeys (registerContainerWithVulcan env s c (cleanName name))) ++ _ = _
      rw [registerCallKeys_register]
      rfl
    · rw [if_neg h, if_neg h]
      rfl

/-- The name scan for one container registers once per (name, matching
service) pair. -/
theorem registerCallKeys_names (env : Env) (svcs : List Service)
    (c : APIContainers) (names : List Name) :
    registerCallKeys (names.flatMap fun name => svcs.flatMap fun s =>
      if s.re (cleanName name) then
        Event.registerCall s.key (cleanName name) ::
          registerContainerWithVulcan env s c (cleanName name)
      else []) =
    names.flatMap fun name =>
      (svcs.filter fun s => s.re (cleanName name)).map
        fun s => (s.key, cleanName name) := by
  induction names with
  | nil => rfl
  | cons n names ih =>
    rw [List.flatMap_cons, List.flatMap_cons, registerCallKeys_append, ih,
      registerCallKeys_svcScan]

/-- C10: a poll pass iterates over every name of every container: the
register calls of the pass are exactly one per (container, name, matching
service) triple, keyed by the cleaned name; in particular a single container
carrying several distinct names that all match one service produces one
registration attempt per matching name, not one per container. -/
theorem poll_registers_per_name (env : Env) (svcs : List Service)
    (cs : List APIContainers) :
    (registerCallKeys (pollContainers env svcs cs) =
       cs.flatMap fun c => c.names.flatMap fun name =>
         (svcs.filter fun s => s.re (cleanName name)).map
           fun s => (s.key, cleanName name)) ∧
    (∀ (s : Service) (c : APIContainers),
       (registerCallKeys (pollContainers env [s] [c])).length =
         (c.names.filter fun name => s.re (cleanName name)).length) := by
  have hpoll : ∀ (cs2 : List APIContainers) (svcs2 : List Service),
      registerCallKeys (pollContainers env svcs2 cs2) =
        cs2.flatMap fun c => c.names.flatMap fun name =>
          (svcs2.filter fun s => s.re (cleanName name)).map
            fun s => (s.key, cleanName name) := by
    intro cs2 svcs2
    induction cs2 with
    | nil => rfl
    | cons c cs2 ih =>
      rw [pollContainers, List.flatMap_cons, registerCallKeys_append,
        registerCallKeys_names, List.flatMap_cons]
      rw [pollContainers] at ih
      rw [ih]
  refine ⟨hpoll cs svcs, ?_⟩
  intro s c
  rw [hpoll [c] [s]]
  simp only [List.flatMap_cons, List.flatMap_nil, List.append_nil]
  induction c.names with
  | nil => rfl
  | cons n ns ih =>
    rw [List.flatMap_cons, List.length_append, ih, List.filter_cons]
    by_cases h : s.re (cleanName n) = true
    · rw [if_pos h]
      simp [List.filter_cons, h]
      omega
    · rw [if_neg h]
      simp [List.filter_cons, h]

/-- C8: the name-stripping operation of the poll pass is idempotent: applying
it twice to any container name yields the same result as applying it once. -/
theorem cleanName_idempotent (name : Name) :
    cleanName (cleanName name) = cleanName name := by
  induction name with
  | nil => rfl
  | cons a rest ih =>
    by_cases h : a = '/'
    · simpa [cleanName, List.dropWhile_cons, h] using ih
    · simp [cleanName, List.dropWhile_cons, h]

/-- Two transitions consume one upstream event and run one reconciliation
pass: the relay takes the event from `receiver`, blocks on its unbuffered
send, and the consumer receives it and runs a pass. -/
theorem runWatch_two_step (fuel m p : Nat) :
    runWatch (fuel + 2)
      { pendingUpstream := m + 1, relayHolding := false, passes := p } =
    runWatch fuel
      { pendingUpstream := m, relayHolding := false, passes := p + 1 } := by
  have s1 : watchStep { pendingUpstream := m + 1, relayHolding := false, passes := p }
      = some { pendingUpstream := m, relayHolding := true, passes := p } := by
    simp [watchStep]
  have s2 : watchStep { pendingUpstream := m, relayHolding := true, passes := p }
      = some { pendingUpstream := m, relayHolding := false, passes := p + 1 } := by
    simp [watchStep]
  show runWatch (fuel + 1 + 1) _ = _
  rw [runWatch, s1]
  show runWatch (fuel + 1) _ = _
  rw [runWatch, s2]

/-- Draining a pre-loaded burst of `n` upstream events runs exactly `n`
passes. -/
theorem runWatch_drain (n : Nat) : ∀ p : Nat,
    (runWatch (2 * n + 1)
      { pendingUpstream := n, relayHolding := false, passes := p }).passes = p + n := by
  induction n with
  | zero => intro p; rfl
  | succ m ih =>
    intro p
    rw [show 2 * (m + 1) + 1 = 2 * m + 1 + 2 by ring, runWatch_two_step, ih (p + 1)]
    omega

/-- C6 counterexample: `defChange` is an UNBUFFERED channel (main.go:60,
`make(chan bool)`) and the relay goroutine (main.go:167-172) performs one
blocking send per upstream event, so nothing is coalesced: a burst of two
upstream change events arriving before the consumer drains the signal causes
two reconciliation passes, not the single pass the claim predicts (and not
exactly one pending notification). -/
theorem burst_not_coalesced_cex : burstPasses 2 = 2 ∧ burstPasses 2 ≠ 1 := by
  decide

/-- C6 amended: incoming watch change events are relayed one-for-one over
unbuffered channels: a burst of `n` upstream change events arriving before
the reconciliation loop drains the signal eventually causes exactly `n`
reconciliation passes — one pass per change (in particular never zero for a
nonempty burst), with blocking backpressure instead of single-slot
coalescing. -/
theorem burstPasses_one_per_change (n : Nat) : burstPasses n = n := by
  rw [burstPasses, runWatch_drain n 0]
  omega

end Desoto
